import Mathlib

/-!
Verification development for `luna/gateware/usb/usb2/descriptor.py`:
the `GetDescriptorHandler` gateware and the descriptor stream sources it
multiplexes.

The handler is modelled as a cycle-accurate synchronous machine.  Machine
integers are modelled as `Nat`/`Int` with explicit wrapping where the
hardware truncates.  nMigen semantics used by the source and reflected here:

* subtraction of two unsigned signals yields a signed value wide enough to
  hold the exact difference (so `Signal(16) - Signal(11)` is exact);
* comparison of that signed value with a constant is an exact integer
  comparison;
* assigning a signed value to an unsigned 16-bit signal truncates the
  two's-complement bit pattern, i.e. takes the value mod 2^16;
* a combinational signal that is not driven in the active branch reads 0;
* a synchronous (`m.d.usb`) assignment guarded by a `Switch` case only takes
  effect while the case matches; otherwise the register holds its value;
* `m.submodules` registration refuses a submodule whose name is already
  taken, raising `NameError` at elaboration time.
-/

namespace Luna

/-- One beat of the `USBInStreamInterface`: a payload byte together with its
`first`/`last` transfer-boundary markers.  The channel's `valid` bit is
modelled by wrapping a `Frame` in `Option`: `none` means not-valid. -/
structure Frame where
  payload : Nat
  first   : Bool
  last    : Bool
deriving DecidableEq

/-- One registered descriptor: its descriptor type number, its index and its
raw byte payload, as iterated from the `DeviceDescriptorCollection` in
`GetDescriptorHandler.elaborate`. -/
structure DescriptorEntry where
  typeNumber : Nat
  index      : Nat
  data       : List Nat
deriving DecidableEq

/-- Fallback entry used only as the default of out-of-range list lookups. -/
def emptyEntry : DescriptorEntry := ⟨0, 0, []⟩

/-- The constant each `m.Case` compares `self.value` against:
`type_number << 8 | index` (descriptor.py line 127). -/
def entryKey (e : DescriptorEntry) : Nat := e.typeNumber <<< 8 ||| e.index

/-- The input signals of `GetDescriptorHandler` sampled in one clock cycle:
`value[16]`, `length[16]`, `start_position[11]`, the `start` strobe, and the
consumer's `tx.ready`. -/
structure Inputs where
  value         : Nat
  length        : Nat
  startPosition : Nat
  start         : Bool
  ready         : Bool
deriving DecidableEq

/-- The output signals of `GetDescriptorHandler` in one clock cycle: the
`tx` stream channel (`none` = not valid) and the `stall` pulse. -/
structure Outputs where
  tx    : Option Frame
  stall : Bool
deriving DecidableEq

/-- The internal `length` signal of `GetDescriptorHandler.elaborate`
(descriptor.py lines 85–96): `words_remaining = self.length -
self.start_position` is an exact signed value in nMigen; if it is at most
`max_packet_length` it is assigned to the unsigned 16-bit `length` signal,
truncating mod 2^16 (so a negative difference wraps); otherwise `length`
is `max_packet_length`. -/
def routerLength (maxPacketLength reqLength startPosition : Nat) : Nat :=
  let wordsRemaining : Int := (reqLength : Int) - (startPosition : Int)
  if wordsRemaining ≤ (maxPacketLength : Int) then
    (wordsRemaining % (65536 : Int)).toNat
  else
    maxPacketLength % 65536

/-- Modelled from the spec: the frames a Descriptor Stream Source
(`ConstantStreamGenerator`, instantiated as `USBDescriptorStreamGenerator`;
its code lives in `luna/gateware/stream/generator.py`, which is not under
`src/`) produces for one activation.  Per spec §4.1 the effective count is
`min(max_length, payload_length - start_offset)`, clamped to zero when
`start_offset ≥ payload_length`; byte `i` of the chunk is
`payload[start_offset + i]`; `is_first` is true exactly on the first frame
and `is_last` exactly on the final frame of the chunk. -/
def streamFrames (data : List Nat) (startPosition maxLength : Nat) : List Frame :=
  let count := min maxLength (data.length - startPosition)
  (List.range count).map fun i =>
    { payload := data.getD (startPosition + i) 0
      first   := i == 0
      last    := i == count - 1 }

/-- Modelled from the spec: one clock cycle of a Descriptor Stream Source
(`ConstantStreamGenerator`, not under `src/`).  Its state is the list of
frames still to be offered (`[]` = idle, no output).  On an `activate`
strobe it restarts from the sampled `start_position`/`max_length` (spec
§4.1: re-activation restarts the cursor, no prior state leaks); otherwise
it advances past the offered frame only when the consumer accepts it
(spec §4.1 backpressure: the same byte is re-offered until accepted). -/
def genStep (data : List Nat) (s : List Frame) (activate : Bool)
    (startPosition maxLength : Nat) (ready : Bool) : List Frame :=
  if activate then
    streamFrames data startPosition maxLength
  else
    match s with
    | [] => []
    | _ :: rest => if ready then rest else s

/-- First match of `self.value` against the generator cases of the
`m.Switch` (descriptor.py lines 121–127); `none` means the default
(stall) case is active. -/
def matchIdx (table : List DescriptorEntry) (value : Nat) : Option Nat :=
  List.findIdx? (fun e => entryKey e == value) table

/-- Full state of the elaborated handler: each generator's stream state and
each generator's registered `start` input (driven by `m.d.usb`,
descriptor.py line 131). -/
structure HandlerState where
  genStates : List (List Frame)
  startRegs : List Bool
deriving DecidableEq

/-- Reset state: every generator idle, every registered `start` low. -/
def initState (table : List DescriptorEntry) : HandlerState :=
  ⟨List.replicate table.length [], List.replicate table.length false⟩

/-- Combinational outputs of `GetDescriptorHandler` in one cycle
(descriptor.py lines 121–135): in a matching case, `tx` is attached to that
generator's stream (so `tx` carries the head of its frame list, `valid` low
when idle) and `stall` is undriven (0); in the default case `tx` is
unattached (not valid) and `stall = start`. -/
def handlerOutputs (table : List DescriptorEntry) (s : HandlerState) (inp : Inputs) : Outputs :=
  match matchIdx table inp.value with
  | some i => ⟨(s.genStates.getD i []).head?, false⟩
  | none   => ⟨none, inp.start⟩

/-- One clock cycle of `GetDescriptorHandler`: every generator sees the
combinational `max_length`/`start_position` (descriptor.py lines 107–110)
and its registered `start` (its activate input this cycle); only the matched
generator sees the consumer's `ready` (stream `attach`, line 130).  The
`m.d.usb` assignment of line 131 updates the matched generator's `start`
register to the router's `start`; the other registers hold. -/
def handlerStep (maxPacketLength : Nat) (table : List DescriptorEntry)
    (s : HandlerState) (inp : Inputs) : HandlerState :=
  let len := routerLength maxPacketLength inp.length inp.startPosition
  let m := matchIdx table inp.value
  ⟨(List.range table.length).map fun i =>
      genStep (table.getD i emptyEntry).data (s.genStates.getD i [])
        (s.startRegs.getD i false) inp.startPosition len
        (if m == some i then inp.ready else false),
   (List.range table.length).map fun i =>
      if m == some i then inp.start else s.startRegs.getD i false⟩

/-- The trace of handler outputs over a list of per-cycle inputs. -/
def handlerRun (maxPacketLength : Nat) (table : List DescriptorEntry) :
    HandlerState → List Inputs → List Outputs
  | _, [] => []
  | s, inp :: rest =>
      handlerOutputs table s inp ::
        handlerRun maxPacketLength table (handlerStep maxPacketLength table s inp) rest

/-- The frames actually transferred over a run: a frame is accepted in a
cycle exactly when `tx` is valid and the consumer's `ready` is high. -/
def acceptedFrames (maxPacketLength : Nat) (table : List DescriptorEntry) :
    HandlerState → List Inputs → List Frame
  | _, [] => []
  | s, inp :: rest =>
      (match (handlerOutputs table s inp).tx with
       | some f => if inp.ready then [f] else []
       | none   => []) ++
        acceptedFrames maxPacketLength table (handlerStep maxPacketLength table s inp) rest

/-- A cycle's worth of inputs with the request fields held constant. -/
def steadyInput (value reqLength startPosition : Nat) (start ready : Bool) : Inputs :=
  ⟨value, reqLength, startPosition, start, ready⟩

/-- The canonical single-activation schedule: one cycle with `start` high,
one gap cycle (the registered `start` reaches the generator here), then one
cycle per entry of `readys`, all with the request fields held constant —
the same driving pattern as `GetDescriptorHandlerTest._test_descriptor`. -/
def activationRun (value reqLength startPosition : Nat) (readys : List Bool) : List Inputs :=
  steadyInput value reqLength startPosition true false ::
    steadyInput value reqLength startPosition false false ::
      readys.map (steadyInput value reqLength startPosition false)

/-- Reference behaviour of a lone streaming generator: the frames accepted
from a pending frame list under a given `ready` schedule. -/
def genAccept : List Frame → List Bool → List Frame
  | _, [] => []
  | [], _ :: rs => genAccept [] rs
  | f :: rest, r :: rs => if r then f :: genAccept rest rs else genAccept (f :: rest) rs

/-- Reference behaviour of a lone streaming generator: the per-cycle channel
outputs from a pending frame list under a given `ready` schedule. -/
def genTrace : List Frame → List Bool → List Outputs
  | _, [] => []
  | [], _ :: rs => ⟨none, false⟩ :: genTrace [] rs
  | f :: rest, r :: rs => ⟨some f, false⟩ :: genTrace (if r then rest else f :: rest) rs

/-- The submodule-registration pass of `GetDescriptorHandler.elaborate`
(descriptor.py lines 102–114): one generator submodule is registered per
descriptor-collection entry, named by its rendered `(type, index)` pair
(modelled by the pair itself); nMigen's `setattr(m.submodules, name,
generator)` raises `NameError` for a name that is already taken, aborting
elaboration — modelled by the error result. -/
def registerGenerators : List (Nat × Nat) → List DescriptorEntry →
    Except String (List (Nat × Nat))
  | names, [] => Except.ok names
  | names, e :: rest =>
      if (e.typeNumber, e.index) ∈ names then
        Except.error "Submodule named already exists"
      else
        registerGenerators (names ++ [(e.typeNumber, e.index)]) rest

/-- Reference behaviour of a lone armed generator driven through the
handler's port discipline: outputs its own stream verbatim with `stall`
never raised, activating one cycle after each sampled `start`. -/
def armedRun (maxPacketLength : Nat) (data : List Nat) :
    List Frame → Bool → List Inputs → List Outputs
  | _, _, [] => []
  | fs, reg, inp :: rest =>
      ⟨fs.head?, false⟩ ::
        armedRun maxPacketLength data
          (genStep data fs reg inp.startPosition
            (routerLength maxPacketLength inp.length inp.startPosition) inp.ready)
          inp.start rest

/-- Concrete fixture: the HID descriptor of `GetDescriptorHandlerTest`
(`b"\x09\x21\x01\x01\x00\x01\x22\x00\x32"`, 9 bytes), registered as the
spec's concrete scenario entry `(type = 1, index = 0)`, so the matching
request value is `1 << 8 | 0 = 256`. -/
def hidTable : List DescriptorEntry := [⟨1, 0, [9, 33, 1, 1, 0, 1, 34, 0, 50]⟩]

/-- Concrete fixture: one registered descriptor whose payload is longer
(65 bytes) than the default `max_packet_length` of 64; its matching request
value is `3 << 8 | 0 = 768`. -/
def longTable : List DescriptorEntry := [⟨3, 0, List.range 65⟩]

/-- Concrete fixture: a descriptor table with two entries sharing the
`(type, index)` pair `(1, 0)`. -/
def dupTable : List DescriptorEntry := [⟨1, 0, [1]⟩, ⟨1, 0, [2]⟩]

/-- Concrete fixture: a drive pattern that starts the HID descriptor,
lets its first byte become valid while the consumer withholds `ready`,
and then pulses `start` again while that byte is still being offered. -/
def reactivationInputs : List Inputs :=
  [steadyInput 256 9 0 true false, steadyInput 256 9 0 false false,
   steadyInput 256 9 0 false false, steadyInput 256 9 0 true false]

/-! ### Small list helpers -/

theorem getD_map_range {α : Type} (f : Nat → α) (d : α) {i n : Nat} (h : i < n) :
    ((List.range n).map f).getD i d = f i := by
  rw [List.getD_eq_getElem?_getD, List.getElem?_map, List.getElem?_range h]
  rfl

theorem getD_replicate_self {α : Type} (a : α) (n i : Nat) :
    (List.replicate n a).getD i a = a := by
  induction n generalizing i with
  | zero => cases i <;> rfl
  | succ n ih =>
      cases i with
      | zero => rfl
      | succ i => exact ih i

/-! ### Reference-generator lemmas -/

theorem genAccept_nil (rs : List Bool) : genAccept [] rs = [] := by
  induction rs with
  | nil => rfl
  | cons r rs ih => exact ih

theorem genAccept_replicate_true (fs : List Frame) {n : Nat} (h : fs.length ≤ n) :
    genAccept fs (List.replicate n true) = fs := by
  induction fs generalizing n with
  | nil => exact genAccept_nil _
  | cons f rest ih =>
      cases n with
      | zero => exact absurd h (by simp)
      | succ n =>
          show (if true then f :: genAccept rest (List.replicate n true) else _) = _
          rw [if_pos rfl, ih (Nat.le_of_succ_le_succ h)]

theorem genAccept_replicate_false_append (fs : List Frame) (n : Nat) (rs : List Bool) :
    genAccept fs (List.replicate n false ++ rs) = genAccept fs rs := by
  induction n generalizing fs with
  | zero => rfl
  | succ n ih =>
      cases fs with
      | nil => rw [genAccept_nil, genAccept_nil]
      | cons f rest =>
          show (if false then _ else genAccept (f :: rest) (List.replicate n false ++ rs)) = _
          rw [if_neg (by simp), ih]

theorem genTrace_nil (rs : List Bool) :
    genTrace [] rs = List.replicate rs.length ⟨none, false⟩ := by
  induction rs with
  | nil => rfl
  | cons r rs ih => simp [genTrace, ih, List.replicate_succ]

theorem genTrace_replicate_false_append (fs : List Frame) (n : Nat) (rs : List Bool) :
    genTrace fs (List.replicate n false ++ rs) =
      List.replicate n ⟨fs.head?, false⟩ ++ genTrace fs rs := by
  induction n generalizing fs with
  | zero => rfl
  | succ n ih =>
      cases fs with
      | nil =>
          show Outputs.mk none false :: genTrace [] (List.replicate n false ++ rs) = _
          rw [ih]
          rfl
      | cons f rest =>
          show Outputs.mk (some f) false ::
              genTrace (if false then rest else f :: rest) (List.replicate n false ++ rs) = _
          rw [if_neg (by simp), ih]
          rfl

/-! ### Properties of the stream frames of one activation -/

theorem streamFrames_length (data : List Nat) (p l : Nat) :
    (streamFrames data p l).length = min l (data.length - p) := by
  simp [streamFrames]

theorem streamFrames_get (data : List Nat) (p l k : Nat)
    (h : k < (streamFrames data p l).length) :
    (streamFrames data p l).get ⟨k, h⟩ =
      ⟨data.getD (p + k) 0, k == 0, k == min l (data.length - p) - 1⟩ := by
  simp [streamFrames]

theorem streamFrames_map_payload (data : List Nat) (p l : Nat) :
    (streamFrames data p l).map (fun f => f.payload) =
      (data.drop p).take (min l (data.length - p)) := by
  apply List.ext_getElem
  · simp [streamFrames]
  · intro k h1 h2
    have hk : k < min l (data.length - p) := by
      simpa [streamFrames] using h1
    have hpk : p + k < data.length := by omega
    simp only [streamFrames, List.getElem_map, List.getElem_range, List.getElem_take,
      List.getElem_drop]
    rw [List.getD_eq_getElem data 0 hpk]

/-! ### Handler step projections -/

theorem genStates_step {mpl : Nat} {table : List DescriptorEntry} {s : HandlerState}
    {inp : Inputs} {i : Nat} (hi : i < table.length) :
    (handlerStep mpl table s inp).genStates.getD i [] =
      genStep (table.getD i emptyEntry).data (s.genStates.getD i [])
        (s.startRegs.getD i false) inp.startPosition
        (routerLength mpl inp.length inp.startPosition)
        (if matchIdx table inp.value == some i then inp.ready else false) :=
  getD_map_range _ _ hi

theorem startRegs_step {mpl : Nat} {table : List DescriptorEntry} {s : HandlerState}
    {inp : Inputs} {i : Nat} (hi : i < table.length) :
    (handlerStep mpl table s inp).startRegs.getD i false =
      (if matchIdx table inp.value == some i then inp.start else s.startRegs.getD i false) :=
  getD_map_range _ _ hi

/-! ### Unfolding equations and output characterizations -/

theorem handlerRun_cons (mpl : Nat) (table : List DescriptorEntry) (s : HandlerState)
    (inp : Inputs) (rest : List Inputs) :
    handlerRun mpl table s (inp :: rest) =
      handlerOutputs table s inp ::
        handlerRun mpl table (handlerStep mpl table s inp) rest := rfl

theorem handlerOutputs_match (table : List DescriptorEntry) (s : HandlerState) (inp : Inputs)
    {i : Nat} (hm : matchIdx table inp.value = some i) :
    handlerOutputs table s inp = ⟨(s.genStates.getD i []).head?, false⟩ := by
  simp only [handlerOutputs, hm]

theorem handlerOutputs_noMatch (table : List DescriptorEntry) (s : HandlerState) (inp : Inputs)
    (hm : matchIdx table inp.value = none) :
    handlerOutputs table s inp = ⟨none, inp.start⟩ := by
  simp only [handlerOutputs, hm]

theorem acceptedFrames_cons (mpl : Nat) (table : List DescriptorEntry) (s : HandlerState)
    (inp : Inputs) (rest : List Inputs) :
    acceptedFrames mpl table s (inp :: rest) =
      (match (handlerOutputs table s inp).tx with
       | some f => if inp.ready then [f] else []
       | none => []) ++
        acceptedFrames mpl table (handlerStep mpl table s inp) rest := rfl

theorem acceptedFrames_cons_none {mpl : Nat} {table : List DescriptorEntry} {s : HandlerState}
    {inp : Inputs} (rest : List Inputs) (h : (handlerOutputs table s inp).tx = none) :
    acceptedFrames mpl table s (inp :: rest) =
      acceptedFrames mpl table (handlerStep mpl table s inp) rest := by
  rw [acceptedFrames_cons, h]
  exact List.nil_append _

theorem acceptedFrames_cons_some {mpl : Nat} {table : List DescriptorEntry} {s : HandlerState}
    {inp : Inputs} (rest : List Inputs) {f : Frame}
    (h : (handlerOutputs table s inp).tx = some f) :
    acceptedFrames mpl table s (inp :: rest) =
      (if inp.ready then [f] else []) ++
        acceptedFrames mpl table (handlerStep mpl table s inp) rest := by
  rw [acceptedFrames_cons, h]

theorem activationRun_cons (value reqLength startPosition : Nat) (readys : List Bool) :
    activationRun value reqLength startPosition readys =
      steadyInput value reqLength startPosition true false ::
        steadyInput value reqLength startPosition false false ::
          readys.map (steadyInput value reqLength startPosition false) := rfl

/-! ### Runs under a matched, steady request -/

theorem handlerRun_steady {mpl : Nat} {table : List DescriptorEntry}
    {value reqLength startPosition i : Nat}
    (hm : matchIdx table value = some i) (hi : i < table.length) :
    ∀ (readys : List Bool) (fs : List Frame) (s : HandlerState),
      s.genStates.getD i [] = fs → s.startRegs.getD i false = false →
      handlerRun mpl table s (readys.map (steadyInput value reqLength startPosition false)) =
        genTrace fs readys := by
  intro readys
  induction readys with
  | nil => intro fs s _ _; cases fs <;> rfl
  | cons r rs ih =>
      intro fs s hs hr
      have hout : handlerOutputs table s (steadyInput value reqLength startPosition false r) =
          ⟨fs.head?, false⟩ := by
        rw [handlerOutputs_match table s (steadyInput value reqLength startPosition false r) hm,
          hs]
      have hg : (handlerStep mpl table s
            (steadyInput value reqLength startPosition false r)).genStates.getD i [] =
          genStep (table.getD i emptyEntry).data fs false startPosition
            (routerLength mpl reqLength startPosition) r := by
        rw [genStates_step hi, hs, hr]
        simp [steadyInput, hm]
      have hr2 : (handlerStep mpl table s
            (steadyInput value reqLength startPosition false r)).startRegs.getD i false = false := by
        rw [startRegs_step hi]
        simp [steadyInput, hm]
      rw [List.map_cons, handlerRun_cons, hout]
      cases fs with
      | nil =>
          rw [ih [] _ (hg.trans rfl) hr2]
          rfl
      | cons f rest =>
          rw [ih (if r then rest else f :: rest) _ (hg.trans rfl) hr2]
          rfl

theorem acceptedFrames_steady {mpl : Nat} {table : List DescriptorEntry}
    {value reqLength startPosition i : Nat}
    (hm : matchIdx table value = some i) (hi : i < table.length) :
    ∀ (readys : List Bool) (fs : List Frame) (s : HandlerState),
      s.genStates.getD i [] = fs → s.startRegs.getD i false = false →
      acceptedFrames mpl table s (readys.map (steadyInput value reqLength startPosition false)) =
        genAccept fs readys := by
  intro readys
  induction readys with
  | nil => intro fs s _ _; cases fs <;> rfl
  | cons r rs ih =>
      intro fs s hs hr
      have hout : handlerOutputs table s (steadyInput value reqLength startPosition false r) =
          ⟨fs.head?, false⟩ := by
        rw [handlerOutputs_match table s (steadyInput value reqLength startPosition false r) hm,
          hs]
      have hg : (handlerStep mpl table s
            (steadyInput value reqLength startPosition false r)).genStates.getD i [] =
          genStep (table.getD i emptyEntry).data fs false startPosition
            (routerLength mpl reqLength startPosition) r := by
        rw [genStates_step hi, hs, hr]
        simp [steadyInput, hm]
      have hr2 : (handlerStep mpl table s
            (steadyInput value reqLength startPosition false r)).startRegs.getD i false = false := by
        rw [startRegs_step hi]
        simp [steadyInput, hm]
      cases fs with
      | nil =>
          rw [List.map_cons, acceptedFrames_cons_none _ (by rw [hout]; rfl),
            ih [] _ (hg.trans rfl) hr2]
          rfl
      | cons f rest =>
          rw [List.map_cons, acceptedFrames_cons_some _ (by rw [hout]; rfl),
            ih (if r then rest else f :: rest) _ (hg.trans rfl) hr2]
          cases r with
          | true => rfl
          | false => exact List.nil_append _

/-! ### A single activation from reset -/

theorem handlerRun_activationRun {mpl : Nat} {table : List DescriptorEntry}
    {value reqLength startPosition i : Nat}
    (hm : matchIdx table value = some i) (hi : i < table.length) (readys : List Bool) :
    handlerRun mpl table (initState table) (activationRun value reqLength startPosition readys) =
      ⟨none, false⟩ :: ⟨none, false⟩ ::
        genTrace (streamFrames (table.getD i emptyEntry).data startPosition
          (routerLength mpl reqLength startPosition)) readys := by
  have h0g : (initState table).genStates.getD i [] = [] := getD_replicate_self _ _ _
  have h0r : (initState table).startRegs.getD i false = false := getD_replicate_self _ _ _
  have hout0 : handlerOutputs table (initState table)
      (steadyInput value reqLength startPosition true false) = ⟨none, false⟩ := by
    rw [handlerOutputs_match table (initState table)
      (steadyInput value reqLength startPosition true false) hm, h0g]
    rfl
  have h1g : (handlerStep mpl table (initState table)
        (steadyInput value reqLength startPosition true false)).genStates.getD i [] = [] := by
    rw [genStates_step hi, h0g, h0r]
    rfl
  have h1r : (handlerStep mpl table (initState table)
        (steadyInput value reqLength startPosition true false)).startRegs.getD i false = true := by
    rw [startRegs_step hi]
    simp [steadyInput, hm]
  have hout1 : handlerOutputs table
      (handlerStep mpl table (initState table)
        (steadyInput value reqLength startPosition true false))
      (steadyInput value reqLength startPosition false false) = ⟨none, false⟩ := by
    rw [handlerOutputs_match table
      (handlerStep mpl table (initState table)
        (steadyInput value reqLength startPosition true false))
      (steadyInput value reqLength startPosition false false) hm, h1g]
    rfl
  have h2g : (handlerStep mpl table
        (handlerStep mpl table (initState table)
          (steadyInput value reqLength startPosition true false))
        (steadyInput value reqLength startPosition false false)).genStates.getD i [] =
      streamFrames (table.getD i emptyEntry).data startPosition
        (routerLength mpl reqLength startPosition) := by
    rw [genStates_step hi, h1g, h1r]
    simp [steadyInput, genStep]
  have h2r : (handlerStep mpl table
        (handlerStep mpl table (initState table)
          (steadyInput value reqLength startPosition true false))
        (steadyInput value reqLength startPosition false false)).startRegs.getD i false = false := by
    rw [startRegs_step hi]
    simp [steadyInput, hm]
  rw [activationRun_cons, handlerRun_cons, handlerRun_cons, hout0, hout1,
    handlerRun_steady hm hi readys _ _ h2g h2r]

theorem acceptedFrames_activationRun {mpl : Nat} {table : List DescriptorEntry}
    {value reqLength startPosition i : Nat}
    (hm : matchIdx table value = some i) (hi : i < table.length) (readys : List Bool) :
    acceptedFrames mpl table (initState table)
        (activationRun value reqLength startPosition readys) =
      genAccept (streamFrames (table.getD i emptyEntry).data startPosition
        (routerLength mpl reqLength startPosition)) readys := by
  have h0g : (initState table).genStates.getD i [] = [] := getD_replicate_self _ _ _
  have h0r : (initState table).startRegs.getD i false = false := getD_replicate_self _ _ _
  have hout0 : handlerOutputs table (initState table)
      (steadyInput value reqLength startPosition true false) = ⟨none, false⟩ := by
    rw [handlerOutputs_match table (initState table)
      (steadyInput value reqLength startPosition true false) hm, h0g]
    rfl
  have h1g : (handlerStep mpl table (initState table)
        (steadyInput value reqLength startPosition true false)).genStates.getD i [] = [] := by
    rw [genStates_step hi, h0g, h0r]
    rfl
  have h1r : (handlerStep mpl table (initState table)
        (steadyInput value reqLength startPosition true false)).startRegs.getD i false = true := by
    rw [startRegs_step hi]
    simp [steadyInput, hm]
  have hout1 : handlerOutputs table
      (handlerStep mpl table (initState table)
        (steadyInput value reqLength startPosition true false))
      (steadyInput value reqLength startPosition false false) = ⟨none, false⟩ := by
    rw [handlerOutputs_match table
      (handlerStep mpl table (initState table)
        (steadyInput value reqLength startPosition true false))
      (steadyInput value reqLength startPosition false false) hm, h1g]
    rfl
  have h2g : (handlerStep mpl table
        (handlerStep mpl table (initState table)
          (steadyInput value reqLength startPosition true false))
        (steadyInput value reqLength startPosition false false)).genStates.getD i [] =
      streamFrames (table.getD i emptyEntry).data startPosition
        (routerLength mpl reqLength startPosition) := by
    rw [genStates_step hi, h1g, h1r]
    simp [steadyInput, genStep]
  have h2r : (handlerStep mpl table
        (handlerStep mpl table (initState table)
          (steadyInput value reqLength startPosition true false))
        (steadyInput value reqLength startPosition false false)).startRegs.getD i false = false := by
    rw [startRegs_step hi]
    simp [steadyInput, hm]
  rw [activationRun_cons, acceptedFrames_cons_none _ (by rw [hout0]),
    acceptedFrames_cons_none _ (by rw [hout1]),
    acceptedFrames_steady hm hi readys _ _ h2g h2r]

/-! ### Runs in which the request value never matches -/

theorem getD_map_range_ge {α : Type} (f : Nat → α) (d : α) {i n : Nat} (h : n ≤ i) :
    ((List.range n).map f).getD i d = d := by
  rw [List.getD_eq_getElem?_getD, List.getElem?_eq_none (by simpa using h)]
  rfl

theorem handlerRun_noMatch {mpl : Nat} {table : List DescriptorEntry} :
    ∀ (ins : List Inputs) (s : HandlerState),
      (∀ inp ∈ ins, matchIdx table inp.value = none) →
      (∀ j, s.genStates.getD j [] = []) →
      (∀ j, s.startRegs.getD j false = false) →
      handlerRun mpl table s ins = ins.map fun inp => ⟨none, inp.start⟩ := by
  intro ins
  induction ins with
  | nil => intro s _ _ _; rfl
  | cons inp rest ih =>
      intro s hnm hg hr
      have hm : matchIdx table inp.value = none := hnm inp (List.mem_cons_self _ _)
      have hg2 : ∀ j, (handlerStep mpl table s inp).genStates.getD j [] = [] := by
        intro j
        by_cases hj : j < table.length
        · rw [genStates_step hj, hg j, hr j]
          rfl
        · exact getD_map_range_ge _ _ (Nat.le_of_not_lt hj)
      have hr2 : ∀ j, (handlerStep mpl table s inp).startRegs.getD j false = false := by
        intro j
        by_cases hj : j < table.length
        · rw [startRegs_step hj, hr j, hm]
          rfl
        · exact getD_map_range_ge _ _ (Nat.le_of_not_lt hj)
      rw [List.map_cons, handlerRun_cons, handlerOutputs_noMatch table s inp hm,
        ih _ (fun x hx => hnm x (List.mem_cons_of_mem _ hx)) hg2 hr2]

theorem acceptedFrames_noMatch {mpl : Nat} {table : List DescriptorEntry} :
    ∀ (ins : List Inputs) (s : HandlerState),
      (∀ inp ∈ ins, matchIdx table inp.value = none) →
      (∀ j, s.genStates.getD j [] = []) →
      (∀ j, s.startRegs.getD j false = false) →
      acceptedFrames mpl table s ins = [] := by
  intro ins
  induction ins with
  | nil => intro s _ _ _; rfl
  | cons inp rest ih =>
      intro s hnm hg hr
      have hm : matchIdx table inp.value = none := hnm inp (List.mem_cons_self _ _)
      have hg2 : ∀ j, (handlerStep mpl table s inp).genStates.getD j [] = [] := by
        intro j
        by_cases hj : j < table.length
        · rw [genStates_step hj, hg j, hr j]
          rfl
        · exact getD_map_range_ge _ _ (Nat.le_of_not_lt hj)
      have hr2 : ∀ j, (handlerStep mpl table s inp).startRegs.getD j false = false := by
        intro j
        by_cases hj : j < table.length
        · rw [startRegs_step hj, hr j, hm]
          rfl
        · exact getD_map_range_ge _ _ (Nat.le_of_not_lt hj)
      rw [acceptedFrames_cons_none _ (by rw [handlerOutputs_noMatch table s inp hm]),
        ih _ (fun x hx => hnm x (List.mem_cons_of_mem _ hx)) hg2 hr2]

theorem initState_genStates (table : List DescriptorEntry) (j : Nat) :
    (initState table).genStates.getD j [] = [] := getD_replicate_self _ _ _

theorem initState_startRegs (table : List DescriptorEntry) (j : Nat) :
    (initState table).startRegs.getD j false = false := getD_replicate_self _ _ _

/-! ### Submodule registration -/

theorem registerGenerators_ok_nodup :
    ∀ (table : List DescriptorEntry) (names out : List (Nat × Nat)),
      registerGenerators names table = Except.ok out →
      (table.map fun e => (e.typeNumber, e.index)).Nodup ∧
        ∀ p ∈ table.map fun e => (e.typeNumber, e.index), p ∉ names := by
  intro table
  induction table with
  | nil =>
      intro names out _
      exact ⟨List.nodup_nil, by simp⟩
  | cons e rest ih =>
      intro names out h
      by_cases hmem : (e.typeNumber, e.index) ∈ names
      · rw [show registerGenerators names (e :: rest) =
            (if (e.typeNumber, e.index) ∈ names then
              Except.error "Submodule named already exists"
            else registerGenerators (names ++ [(e.typeNumber, e.index)]) rest) from rfl,
          if_pos hmem] at h
        exact Except.noConfusion h
      · rw [show registerGenerators names (e :: rest) =
            (if (e.typeNumber, e.index) ∈ names then
              Except.error "Submodule named already exists"
            else registerGenerators (names ++ [(e.typeNumber, e.index)]) rest) from rfl,
          if_neg hmem] at h
        obtain ⟨hnd, hnotin⟩ := ih _ _ h
        refine ⟨List.nodup_cons.mpr ⟨?_, hnd⟩, ?_⟩
        · intro hkey
          exact hnotin _ hkey (List.mem_append_right _ (List.mem_singleton.mpr rfl))
        · intro p hp hpn
          rcases List.mem_cons.mp hp with hp1 | hp2
          · cases hp1
            exact hmem hpn
          · exact hnotin _ hp2 (List.mem_append_left _ hpn)

/-! ### Further helpers for the claim theorems -/

theorem beq_eq_decide (a b : Nat) : (a == b) = decide (a = b) := by
  by_cases h : a = b <;> simp [h]

theorem drop_two_cons {α : Type} (a b : α) (l : List α) : List.drop 2 (a :: b :: l) = l := rfl

theorem routerLength_eq_min {mpl reqLength startPosition : Nat}
    (hpos : startPosition ≤ reqLength) (hreq : reqLength < 65536) (hmpl : mpl < 65536) :
    routerLength mpl reqLength startPosition = min (reqLength - startPosition) mpl := by
  unfold routerLength
  dsimp only
  split
  · next h => omega
  · next h => omega

theorem accepted_activation_spec {mpl : Nat} {table : List DescriptorEntry}
    {value reqLength startPosition i n : Nat}
    (hm : matchIdx table value = some i) (hi : i < table.length)
    (hn : min (routerLength mpl reqLength startPosition)
      ((table.getD i emptyEntry).data.length - startPosition) ≤ n) :
    acceptedFrames mpl table (initState table)
        (activationRun value reqLength startPosition (List.replicate n true)) =
      streamFrames (table.getD i emptyEntry).data startPosition
        (routerLength mpl reqLength startPosition) := by
  rw [acceptedFrames_activationRun hm hi]
  exact genAccept_replicate_true _ (by rw [streamFrames_length]; exact hn)

theorem streamFrames_markers (data : List Nat) (p l k : Nat)
    (hk : k < (streamFrames data p l).length) :
    ((streamFrames data p l).get ⟨k, hk⟩).first = decide (k = 0) ∧
    ((streamFrames data p l).get ⟨k, hk⟩).last =
      decide (k = min l (data.length - p) - 1) := by
  rw [streamFrames_get data p l k hk]
  exact ⟨beq_eq_decide _ _, beq_eq_decide _ _⟩

theorem handlerRun_activation_empty {mpl : Nat} {table : List DescriptorEntry}
    {value reqLength startPosition i : Nat}
    (hm : matchIdx table value = some i) (hi : i < table.length) (readys : List Bool)
    (hsf : streamFrames (table.getD i emptyEntry).data startPosition
      (routerLength mpl reqLength startPosition) = []) :
    handlerRun mpl table (initState table)
        (activationRun value reqLength startPosition readys) =
      List.replicate (readys.length + 2) ⟨none, false⟩ := by
  rw [handlerRun_activationRun hm hi, hsf, genTrace_nil]
  rfl

theorem armedRun_stall_false (mpl : Nat) (data : List Nat) :
    ∀ (ins : List Inputs) (fs : List Frame) (reg : Bool),
      ∀ out ∈ armedRun mpl data fs reg ins, out.stall = false := by
  intro ins
  induction ins with
  | nil =>
      intro fs reg out h
      simp [armedRun] at h
  | cons inp rest ih =>
      intro fs reg out h
      rcases List.mem_cons.mp h with h1 | h2
      · rw [h1]
      · exact ih _ _ out h2

theorem handlerRun_matched_armed (mpl : Nat) {table : List DescriptorEntry} {i : Nat}
    (hi : i < table.length) :
    ∀ (ins : List Inputs) (s : HandlerState),
      (∀ inp ∈ ins, matchIdx table inp.value = some i) →
      handlerRun mpl table s ins =
        armedRun mpl (table.getD i emptyEntry).data (s.genStates.getD i [])
          (s.startRegs.getD i false) ins := by
  intro ins
  induction ins with
  | nil => intro s _; rfl
  | cons inp rest ih =>
      intro s hall
      have hm := hall inp (List.mem_cons_self _ _)
      have e1 : (handlerStep mpl table s inp).genStates.getD i [] =
          genStep (table.getD i emptyEntry).data (s.genStates.getD i [])
            (s.startRegs.getD i false) inp.startPosition
            (routerLength mpl inp.length inp.startPosition) inp.ready := by
        rw [genStates_step hi, hm]
        simp
      have e2 : (handlerStep mpl table s inp).startRegs.getD i false = inp.start := by
        rw [startRegs_step hi, hm]
        simp
      rw [handlerRun_cons, handlerOutputs_match table s inp hm,
        ih _ (fun x hx => hall x (List.mem_cons_of_mem _ hx)), e1, e2]
      rfl

/-! ### Claim theorems -/

/-- C1: the claim states the router's internal `length` signal always equals
`min(max(requested_length - start_position, 0), max_packet_length)`, never
exceeds `max_packet_length`, and is zero when `requested_length <
start_position`.  The code violates this: at `requested_length = 0`,
`start_position = 1` (with `max_packet_length = 64`) the signed difference
`-1` wraps into the unsigned 16-bit signal, giving 65535 — far above
`max_packet_length` and not zero. -/
theorem c1_chunk_bound_underflow :
    routerLength 64 0 1 = 65535 ∧ 64 < routerLength 64 0 1 :=
  ⟨by decide, by decide⟩

/-- C2: for every registered descriptor with payload `P` of length `L` and
every matched activation with computed bound `max_length = routerLength mpl
requested_length start_offset`, exactly `count = min max_length (L -
start_offset)` frames are accepted (Nat subtraction models
`max(L - start_offset, 0)`), carrying `P[start_offset : start_offset +
count]` in payload order, with `is_first` true only on frame 0 and `is_last`
true only on frame `count - 1`; when `count = 0` no frames are emitted. -/
theorem c2_matched_activation_frames (mpl : Nat) (table : List DescriptorEntry)
    (value reqLength startPosition i n : Nat)
    (hm : matchIdx table value = some i) (hi : i < table.length)
    (_hreq : reqLength < 65536) (_hpos : startPosition < 2048)
    (hn : min (routerLength mpl reqLength startPosition)
      ((table.getD i emptyEntry).data.length - startPosition) ≤ n) :
    acceptedFrames mpl table (initState table)
        (activationRun value reqLength startPosition (List.replicate n true)) =
      streamFrames (table.getD i emptyEntry).data startPosition
        (routerLength mpl reqLength startPosition) ∧
    (acceptedFrames mpl table (initState table)
        (activationRun value reqLength startPosition (List.replicate n true))).length =
      min (routerLength mpl reqLength startPosition)
        ((table.getD i emptyEntry).data.length - startPosition) ∧
    (acceptedFrames mpl table (initState table)
        (activationRun value reqLength startPosition (List.replicate n true))).map
        (fun f => f.payload) =
      ((table.getD i emptyEntry).data.drop startPosition).take
        (min (routerLength mpl reqLength startPosition)
          ((table.getD i emptyEntry).data.length - startPosition)) ∧
    ∀ k, ∀ hk : k < (streamFrames (table.getD i emptyEntry).data startPosition
      (routerLength mpl reqLength startPosition)).length,
      ((streamFrames (table.getD i emptyEntry).data startPosition
          (routerLength mpl reqLength startPosition)).get ⟨k, hk⟩).first =
        decide (k = 0) ∧
      ((streamFrames (table.getD i emptyEntry).data startPosition
          (routerLength mpl reqLength startPosition)).get ⟨k, hk⟩).last =
        decide (k = min (routerLength mpl reqLength startPosition)
          ((table.getD i emptyEntry).data.length - startPosition) - 1) := by
  have hacc := accepted_activation_spec hm hi hn
  refine ⟨hacc, ?_, ?_, ?_⟩
  · rw [hacc, streamFrames_length]
  · rw [hacc, streamFrames_map_payload]
  · intro k hk
    exact streamFrames_markers _ _ _ k hk

/-- C2 witness: the spec's concrete scenario — HID descriptor, request
`(type 1, index 0, requested_length 4, start_offset 1)` accepts the three
bytes `[0x21, 0x01, 0x01]`. -/
theorem c2_matched_activation_frames_witness :
    (acceptedFrames 64 hidTable (initState hidTable)
        (activationRun 256 4 1 (List.replicate 3 true))).map (fun f => f.payload) =
      [33, 1, 1] := by
  rw [(c2_matched_activation_frames 64 hidTable 256 4 1 0 3 (by decide) (by decide)
    (by decide) (by decide) (by decide)).1]
  decide

/-- C3: for a request value matching no registered descriptor, the whole
output trace from reset is `stall = start` (one single-cycle stall pulse
coincident with each `start` strobe) with the channel never valid, and no
frames are ever accepted — for every `requested_length`/`start_offset`. -/
theorem c3_unmatched_request_stalls (mpl : Nat) (table : List DescriptorEntry)
    (ins : List Inputs) (hnm : ∀ inp ∈ ins, matchIdx table inp.value = none) :
    handlerRun mpl table (initState table) ins =
      (ins.map fun inp => ⟨none, inp.start⟩) ∧
    acceptedFrames mpl table (initState table) ins = [] :=
  ⟨handlerRun_noMatch ins _ hnm (initState_genStates table) (initState_startRegs table),
   acceptedFrames_noMatch ins _ hnm (initState_genStates table) (initState_startRegs table)⟩

/-- C3 witness: the spec's concrete scenario — request for the absent
`(type 99, index 5)` (value `99 << 8 | 5 = 25349`) stalls exactly in the
start cycle and never drives the channel. -/
theorem c3_unmatched_request_stalls_witness :
    handlerRun 64 hidTable (initState hidTable)
        [steadyInput 25349 64 0 true true, steadyInput 25349 64 0 false true,
         steadyInput 25349 64 0 false true] =
      [⟨none, true⟩, ⟨none, false⟩, ⟨none, false⟩] := by
  rw [(c3_unmatched_request_stalls 64 hidTable _ (by decide)).1]
  rfl

set_option maxRecDepth 4000 in
/-- C4 counterexample: the claim says a request with `start_offset = 0` and
`requested_length = L` yields exactly `L` frames for every registered
descriptor of payload length `L`.  For the registered 65-byte descriptor
(length input is in range: 65 < 2^16) the full-length request yields only 64
frames (the `max_packet_length` cap), not 65. -/
theorem c4_full_length_counterexample :
    (longTable.getD 0 emptyEntry).data.length = 65 ∧
    matchIdx longTable 768 = some 0 ∧
    (acceptedFrames 64 longTable (initState longTable)
        (activationRun 768 65 0 (List.replicate 65 true))).length = 64 :=
  ⟨by decide, by decide, by decide⟩

/-- C4 (amended): a request with `start_offset = 0` and `requested_length =
L` yields exactly `min L max_packet_length` frames — which is `L` whenever
`L ≤ max_packet_length` — with `is_first` true on frame 0 only, `is_last`
true on the final frame only, and the bytes equal to the corresponding
prefix of the payload in order. -/
theorem c4_full_length_request (mpl : Nat) (table : List DescriptorEntry)
    (value i n : Nat) (hm : matchIdx table value = some i) (hi : i < table.length)
    (hL : (table.getD i emptyEntry).data.length < 65536) (hmpl : mpl < 65536)
    (hn : min (table.getD i emptyEntry).data.length mpl ≤ n) :
    (acceptedFrames mpl table (initState table)
        (activationRun value (table.getD i emptyEntry).data.length 0
          (List.replicate n true))).length =
      min (table.getD i emptyEntry).data.length mpl ∧
    (acceptedFrames mpl table (initState table)
        (activationRun value (table.getD i emptyEntry).data.length 0
          (List.replicate n true))).map (fun f => f.payload) =
      (table.getD i emptyEntry).data.take
        (min (table.getD i emptyEntry).data.length mpl) ∧
    ∀ k, ∀ hk : k < (streamFrames (table.getD i emptyEntry).data 0
      (routerLength mpl (table.getD i emptyEntry).data.length 0)).length,
      ((streamFrames (table.getD i emptyEntry).data 0
          (routerLength mpl (table.getD i emptyEntry).data.length 0)).get ⟨k, hk⟩).first =
        decide (k = 0) ∧
      ((streamFrames (table.getD i emptyEntry).data 0
          (routerLength mpl (table.getD i emptyEntry).data.length 0)).get ⟨k, hk⟩).last =
        decide (k = min (table.getD i emptyEntry).data.length mpl - 1) := by
  have hrl : routerLength mpl (table.getD i emptyEntry).data.length 0 =
      min (table.getD i emptyEntry).data.length mpl := by
    rw [routerLength_eq_min (Nat.zero_le _) hL hmpl, Nat.sub_zero]
  have hcount : min (routerLength mpl (table.getD i emptyEntry).data.length 0)
      ((table.getD i emptyEntry).data.length - 0) =
      min (table.getD i emptyEntry).data.length mpl := by
    rw [hrl]
    omega
  have hn2 : min (routerLength mpl (table.getD i emptyEntry).data.length 0)
      ((table.getD i emptyEntry).data.length - 0) ≤ n := by
    rw [hcount]
    exact hn
  have hacc := accepted_activation_spec hm hi hn2
  refine ⟨?_, ?_, ?_⟩
  · rw [hacc, streamFrames_length, hcount]
  · rw [hacc, streamFrames_map_payload, List.drop_zero, hcount]
  · intro k hk
    have h := streamFrames_markers (table.getD i emptyEntry).data 0
      (routerLength mpl (table.getD i emptyEntry).data.length 0) k hk
    rw [hcount] at h
    exact h

/-- C4 witness: the HID descriptor (9 bytes ≤ 64) requested in full yields
exactly 9 frames. -/
theorem c4_full_length_request_witness :
    (acceptedFrames 64 hidTable (initState hidTable)
        (activationRun 256 9 0 (List.replicate 9 true))).length = 9 := by
  have h := (c4_full_length_request 64 hidTable 256 0 9 (by decide) (by decide)
    (by decide) (by decide) (by decide)).1
  exact h.trans (by decide)

/-- C5: a matched activation whose computed `max_length` is zero is a
matched empty response: the whole output trace is not-valid with `stall`
never asserted (observably distinct from the stall case, whose trace pulses
`stall`), and no frames are accepted. -/
theorem c5_zero_bound_empty_response (mpl : Nat) (table : List DescriptorEntry)
    (value reqLength startPosition i : Nat) (readys : List Bool)
    (hm : matchIdx table value = some i) (hi : i < table.length)
    (hzero : routerLength mpl reqLength startPosition = 0) :
    handlerRun mpl table (initState table)
        (activationRun value reqLength startPosition readys) =
      List.replicate (readys.length + 2) ⟨none, false⟩ ∧
    acceptedFrames mpl table (initState table)
        (activationRun value reqLength startPosition readys) = [] := by
  have hsf : streamFrames (table.getD i emptyEntry).data startPosition
      (routerLength mpl reqLength startPosition) = [] := by
    rw [hzero]
    simp [streamFrames]
  exact ⟨handlerRun_activation_empty hm hi readys hsf,
    by rw [acceptedFrames_activationRun hm hi, hsf, genAccept_nil]⟩

/-- C5 witness: requesting the HID descriptor with `requested_length = 0`,
`start_offset = 0` (computed bound 0) produces a five-cycle all-idle,
never-stalling trace. -/
theorem c5_zero_bound_empty_response_witness :
    handlerRun 64 hidTable (initState hidTable)
        (activationRun 256 0 0 [true, true, true]) =
      List.replicate 5 ⟨none, false⟩ :=
  (c5_zero_bound_empty_response 64 hidTable 256 0 0 0 [true, true, true]
    (by decide) (by decide) (by decide)).1

/-- C6: a descriptor table containing two entries with the same
`(type, index)` pair is rejected at elaboration (construction/startup) time:
submodule registration fails with an error, so duplicates are never silently
accepted and never reach runtime dispatch. -/
theorem c6_duplicate_entries_rejected (table : List DescriptorEntry) (i j : Nat)
    (hi : i < table.length) (hj : j < table.length) (hij : i ≠ j)
    (htype : (table.getD i emptyEntry).typeNumber = (table.getD j emptyEntry).typeNumber)
    (hidx : (table.getD i emptyEntry).index = (table.getD j emptyEntry).index) :
    (registerGenerators [] table).isOk = false := by
  cases hres : registerGenerators [] table with
  | error msg => rfl
  | ok out =>
      exfalso
      have hnd := (registerGenerators_ok_nodup table [] out hres).1
      have hmap : (table.map fun e => (e.typeNumber, e.index)).getD i (0, 0) =
          (table.map fun e => (e.typeNumber, e.index)).getD j (0, 0) := by
        rw [List.getD_eq_getElem _ _ (by simpa using hi),
          List.getD_eq_getElem _ _ (by simpa using hj),
          List.getElem_map, List.getElem_map,
          ← List.getD_eq_getElem table emptyEntry hi,
          ← List.getD_eq_getElem table emptyEntry hj, htype, hidx]
      rw [List.getD_eq_getElem _ _ (by simpa using hi),
        List.getD_eq_getElem _ _ (by simpa using hj)] at hmap
      exact hij ((List.Nodup.getElem_inj_iff hnd).mp hmap)

/-- C6 witness: a table with two `(1, 0)` entries fails registration. -/
theorem c6_duplicate_entries_rejected_witness :
    (registerGenerators [] dupTable).isOk = false :=
  c6_duplicate_entries_rejected dupTable 0 1 (by decide) (by decide) (by decide)
    rfl rfl

/-- C7: a matched request whose `start_offset` is at or beyond the payload
length yields an empty chunk: the whole output trace is not-valid, `stall`
is never asserted, and no frames are accepted. -/
theorem c7_offset_past_end_empty (mpl : Nat) (table : List DescriptorEntry)
    (value reqLength startPosition i : Nat) (readys : List Bool)
    (hm : matchIdx table value = some i) (hi : i < table.length)
    (hpast : (table.getD i emptyEntry).data.length ≤ startPosition) :
    handlerRun mpl table (initState table)
        (activationRun value reqLength startPosition readys) =
      List.replicate (readys.length + 2) ⟨none, false⟩ ∧
    acceptedFrames mpl table (initState table)
        (activationRun value reqLength startPosition readys) = [] := by
  have hsf : streamFrames (table.getD i emptyEntry).data startPosition
      (routerLength mpl reqLength startPosition) = [] := by
    have h0 : (table.getD i emptyEntry).data.length - startPosition = 0 :=
      Nat.sub_eq_zero_of_le hpast
    unfold streamFrames
    dsimp only
    rw [h0, Nat.min_zero]
    rfl
  exact ⟨handlerRun_activation_empty hm hi readys hsf,
    by rw [acceptedFrames_activationRun hm hi, hsf, genAccept_nil]⟩

/-- C7 witness: requesting the 9-byte HID descriptor from offset 9 yields
zero frames and no stall. -/
theorem c7_offset_past_end_empty_witness :
    acceptedFrames 64 hidTable (initState hidTable)
        (activationRun 256 64 9 [true, true, true, true]) = [] :=
  (c7_offset_past_end_empty 64 hidTable 256 64 9 0 [true, true, true, true]
    (by decide) (by decide) (by decide)).2

/-- C8: whenever the request value matches a registered entry, the `stall`
output is never asserted on any cycle, and the `tx` channel equals, cycle by
cycle, the matched source's own stream output (`armedRun`: the generator
driven through the handler's port discipline) — i.e. the source's output is
forwarded verbatim. -/
theorem c8_matched_no_stall_verbatim (mpl : Nat) (table : List DescriptorEntry)
    (i : Nat) (ins : List Inputs) (s : HandlerState)
    (hall : ∀ inp ∈ ins, matchIdx table inp.value = some i) (hi : i < table.length) :
    handlerRun mpl table s ins =
      armedRun mpl (table.getD i emptyEntry).data (s.genStates.getD i [])
        (s.startRegs.getD i false) ins ∧
    ∀ out ∈ handlerRun mpl table s ins, out.stall = false := by
  have h := handlerRun_matched_armed mpl hi ins s hall
  exact ⟨h, fun out hout => armedRun_stall_false mpl _ ins _ _ out (h ▸ hout)⟩

/-- C8 witness: a full HID-descriptor activation's trace equals the lone
armed generator's trace. -/
theorem c8_matched_no_stall_verbatim_witness :
    handlerRun 64 hidTable (initState hidTable)
        (activationRun 256 9 0 (List.replicate 3 true)) =
      armedRun 64 (hidTable.getD 0 emptyEntry).data
        ((initState hidTable).genStates.getD 0 [])
        ((initState hidTable).startRegs.getD 0 false)
        (activationRun 256 9 0 (List.replicate 3 true)) :=
  (c8_matched_no_stall_verbatim 64 hidTable 0
    (activationRun 256 9 0 (List.replicate 3 true)) (initState hidTable)
    (by decide) (by decide)).1

/-- C9: two-run backpressure property — withholding `ready` for `nDelay`
cycles after activation and then accepting yields exactly the same accepted
frame sequence (same bytes, same `is_first`/`is_last` markers) as immediate
acceptance; during the withheld cycles the same offered frame is re-offered
unchanged every cycle. -/
theorem c9_backpressure_two_runs (mpl : Nat) (table : List DescriptorEntry)
    (value reqLength startPosition i nDelay n : Nat)
    (hm : matchIdx table value = some i) (hi : i < table.length)
    (_hreq : reqLength < 65536) (_hpos : startPosition < 2048) :
    acceptedFrames mpl table (initState table)
        (activationRun value reqLength startPosition
          (List.replicate nDelay false ++ List.replicate n true)) =
      acceptedFrames mpl table (initState table)
        (activationRun value reqLength startPosition (List.replicate n true)) ∧
    List.take nDelay (List.drop 2 (handlerRun mpl table (initState table)
        (activationRun value reqLength startPosition
          (List.replicate nDelay false ++ List.replicate n true)))) =
      List.replicate nDelay
        ⟨(streamFrames (table.getD i emptyEntry).data startPosition
            (routerLength mpl reqLength startPosition)).head?, false⟩ := by
  constructor
  · rw [acceptedFrames_activationRun hm hi, acceptedFrames_activationRun hm hi,
      genAccept_replicate_false_append]
  · rw [handlerRun_activationRun hm hi, drop_two_cons,
      genTrace_replicate_false_append]
    exact List.take_left' (List.length_replicate _ _)

/-- C9 witness: delaying `ready` by 5 cycles leaves the accepted frames of
a full HID-descriptor read unchanged. -/
theorem c9_backpressure_two_runs_witness :
    acceptedFrames 64 hidTable (initState hidTable)
        (activationRun 256 9 0 (List.replicate 5 false ++ List.replicate 9 true)) =
      acceptedFrames 64 hidTable (initState hidTable)
        (activationRun 256 9 0 (List.replicate 9 true)) :=
  (c9_backpressure_two_runs 64 hidTable 256 9 0 0 5 9 (by decide) (by decide)
    (by decide) (by decide)).1

/-- C10 counterexample: the claim's middle clause says `tx.valid` is never
asserted in the same cycle as `start`.  Re-activating while the armed
source is still offering a byte (consumer withholding `ready`) gives a
cycle — index 3 of `reactivationInputs`, a matched request — in which
`start` is high and the channel is valid simultaneously. -/
theorem c10_start_coincident_valid_counterexample :
    matchIdx hidTable
        (reactivationInputs.getD 3 (steadyInput 0 0 0 false false)).value = some 0 ∧
    (reactivationInputs.getD 3 (steadyInput 0 0 0 false false)).start = true ∧
    ((handlerRun 64 hidTable (initState hidTable) reactivationInputs).getD 3
        ⟨none, false⟩).tx ≠ none :=
  ⟨by decide, by decide, by decide⟩

/-- C10 (amended): a matched activation reaches the source's `activate`
input exactly one clock later (the `m.d.usb` register takes the router's
`start`), the no-match stall is combinational (`stall = start` in the start
cycle itself), and in a start cycle in which the armed source is idle the
channel is not valid; only re-activation during an in-flight stream can see
`tx.valid` high coincident with `start`. -/
theorem c10_registered_activation_delay (mpl : Nat) (table : List DescriptorEntry)
    (s : HandlerState) (inp : Inputs) (i : Nat) (hi : i < table.length) :
    (matchIdx table inp.value = some i →
      (handlerStep mpl table s inp).startRegs.getD i false = inp.start) ∧
    (matchIdx table inp.value = none →
      (handlerOutputs table s inp).stall = inp.start) ∧
    (matchIdx table inp.value = some i → s.genStates.getD i [] = [] →
      (handlerOutputs table s inp).tx = none) := by
  refine ⟨fun hm => ?_, fun hm => ?_, fun hm hidle => ?_⟩
  · rw [startRegs_step hi, hm]
    simp
  · rw [handlerOutputs_noMatch table s inp hm]
  · rw [handlerOutputs_match table s inp hm, hidle]
    rfl

/-- C10 witness: concrete instances of all three clauses — the registered
`start` one cycle after a matched start, the combinational stall of an
unmatched start, and the idle-cycle non-valid channel. -/
theorem c10_registered_activation_delay_witness :
    (handlerStep 64 hidTable (initState hidTable)
        (steadyInput 256 9 0 true true)).startRegs.getD 0 false = true ∧
    (handlerOutputs hidTable (initState hidTable)
        (steadyInput 0 9 0 true true)).stall = true ∧
    (handlerOutputs hidTable (initState hidTable)
        (steadyInput 256 9 0 true true)).tx = none :=
  ⟨(c10_registered_activation_delay 64 hidTable (initState hidTable)
      (steadyInput 256 9 0 true true) 0 (by decide)).1 (by decide),
   (c10_registered_activation_delay 64 hidTable (initState hidTable)
      (steadyInput 0 9 0 true true) 0 (by decide)).2.1 (by decide),
   (c10_registered_activation_delay 64 hidTable (initState hidTable)
      (steadyInput 256 9 0 true true) 0 (by decide)).2.2 (by decide) (by decide)⟩

end Luna
